import Mathlib

/-!
# Verification of the _NeoCORTEX ingest staging and telemetry subsystem

A shallow embedding, in Lean 4, of the selection-tree model, the two
polling synchronizers, and the ingest orchestration handler of the
repository's frontend, together with theorems settling the specified
properties.

The tree functions (`updateNodeChecked`, `extractCheckedFiles`) are
translated from the helpers at the top of the `IngestView` component; the
telemetry buffer update is translated from the `ThoughtStream` polling
effect together with `api.getInspectionFrames`; the timer lifecycles are
translated from the two `useEffect` polling blocks; the start handler is
translated from `handleStartIngest`.
-/

/-- The `type` discriminator of a `FileNode`: `'folder' | 'file' | 'binary'`. -/
inductive FileKind : Type where
  | folder : FileKind
  | file : FileKind
  | binary : FileKind
deriving DecidableEq, Repr

/-- The `FileNode` tree entity from `types.ts`: `name`, `path` (absolute,
identity key), `rel_path`, `type`, `checked`, and optional ordered
`children` (`undefined` is modelled as `none`; a present empty array as
`some []`). -/
inductive FileNode : Type where
  | mk (name : String) (path : String) (rel_path : String) (type : FileKind)
       (checked : Bool) (children : Option (List FileNode)) : FileNode
deriving Repr

/-- Accessor for the `name` field. -/
def FileNode.name : FileNode → String
  | .mk nm _ _ _ _ _ => nm

/-- Accessor for the `path` field. -/
def FileNode.path : FileNode → String
  | .mk _ p _ _ _ _ => p

/-- Accessor for the `rel_path` field. -/
def FileNode.rel_path : FileNode → String
  | .mk _ _ rp _ _ _ => rp

/-- Accessor for the `type` field. -/
def FileNode.type : FileNode → FileKind
  | .mk _ _ _ k _ _ => k

/-- Accessor for the `checked` field. -/
def FileNode.checked : FileNode → Bool
  | .mk _ _ _ _ ch _ => ch

/-- Accessor for the `children` field. -/
def FileNode.children : FileNode → Option (List FileNode)
  | .mk _ _ _ _ _ cs => cs

mutual
/-- The inner `updateRecursive` closure of `updateNodeChecked`: spread the
node, overwrite `checked`, and map the recursion over `children` when they
are present (`undefined` children stay `undefined`). -/
def updateRecursive (n : FileNode) (checked : Bool) : FileNode :=
  match n with
  | .mk nm p rp k _ none => .mk nm p rp k checked none
  | .mk nm p rp k _ (some cs) => .mk nm p rp k checked (some (updateRecursiveList cs checked))

/-- `children.map(c => updateRecursive(c, checked))`. -/
def updateRecursiveList (l : List FileNode) (checked : Bool) : List FileNode :=
  match l with
  | [] => []
  | c :: cs => updateRecursive c checked :: updateRecursiveList cs checked
end

mutual
/-- `updateNodeChecked(root, targetPath, newChecked)` from `IngestView`:
if `root.path === targetPath`, overwrite `checked` on the whole subtree
via `updateRecursive`; otherwise, when children are present, recurse into
every child; otherwise return the node unchanged. -/
def updateNodeChecked (root : FileNode) (targetPath : String) (newChecked : Bool) : FileNode :=
  if root.path = targetPath then
    updateRecursive root newChecked
  else
    match root with
    | .mk nm p rp k ch none => .mk nm p rp k ch none
    | .mk nm p rp k ch (some cs) =>
        .mk nm p rp k ch (some (updateNodeCheckedList cs targetPath newChecked))

/-- `root.children.map(child => updateNodeChecked(child, targetPath, newChecked))`. -/
def updateNodeCheckedList (l : List FileNode) (targetPath : String) (newChecked : Bool) :
    List FileNode :=
  match l with
  | [] => []
  | c :: cs => updateNodeChecked c targetPath newChecked :: updateNodeCheckedList cs targetPath newChecked
end

mutual
/-- `extractCheckedFiles(node)` from `IngestView`: push `node.rel_path`
when `node.type === 'file' && node.checked`, then concatenate the results
of the children in order. -/
def extractCheckedFiles (node : FileNode) : List String :=
  match node with
  | .mk _ _ rp k ch cs =>
      (if k = FileKind.file ∧ ch = true then [rp] else []) ++
        (match cs with
         | none => []
         | some l => extractCheckedFilesList l)

/-- Concatenation of `extractCheckedFiles` over a list of children. -/
def extractCheckedFilesList (l : List FileNode) : List String :=
  match l with
  | [] => []
  | c :: cs => extractCheckedFiles c ++ extractCheckedFilesList cs
end

mutual
/-- Preorder (depth-first, children in order) listing of all nodes of a tree. -/
def allNodes (n : FileNode) : List FileNode :=
  match n with
  | .mk nm p rp k ch cs =>
      .mk nm p rp k ch cs ::
        (match cs with
         | none => []
         | some l => allNodesList l)

/-- Concatenation of `allNodes` over a list of children. -/
def allNodesList (l : List FileNode) : List FileNode :=
  match l with
  | [] => []
  | c :: cs => allNodes c ++ allNodesList cs
end

/-- Child lookup by position: `getNode t pos` walks the list of child
indices `pos` down from the root `t`. -/
def getNode (n : FileNode) : List Nat → Option FileNode
  | [] => some n
  | i :: rest =>
      match n.children with
      | none => none
      | some l =>
          match l.get? i with
          | none => none
          | some c => getNode c rest

/-- `underPathB t p pos` decides whether the node position `pos` lies in a
subtree whose root has `path = p` (i.e. some prefix of `pos` reaches a node
whose `path` equals `p`). -/
def underPathB (n : FileNode) (p : String) : List Nat → Bool
  | [] => n.path == p
  | i :: rest =>
      if n.path == p then true
      else
        match n.children with
        | none => false
        | some l =>
            match l.get? i with
            | none => false
            | some c => underPathB c p rest

/-- Every field of a node except `checked` and the contents of `children`
(the presence of `children` is recorded; their contents are addressed by
deeper positions). -/
def nodeShape (n : FileNode) : String × String × String × FileKind × Bool :=
  (n.name, n.path, n.rel_path, n.type, n.children.isSome)

/-- The selection predicate of `extractCheckedFiles`:
`node.type === 'file' && node.checked`. -/
def isCheckedFile (n : FileNode) : Bool :=
  (n.type == FileKind.file) && n.checked

mutual
/-- Number of nodes of a tree, used only to derive an induction principle. -/
def FileNode.size (n : FileNode) : Nat :=
  match n with
  | .mk _ _ _ _ _ none => 1
  | .mk _ _ _ _ _ (some cs) => 1 + sizeList cs

/-- Total size of a list of trees. -/
def sizeList (l : List FileNode) : Nat :=
  match l with
  | [] => 0
  | c :: cs => FileNode.size c + sizeList cs
end

theorem size_le_of_mem {c : FileNode} {l : List FileNode} (h : c ∈ l) :
    FileNode.size c ≤ sizeList l := by
  induction l with
  | nil => cases h
  | cons a as ih =>
      rcases List.mem_cons.mp h with rfl | h2
      · simp [sizeList]
      · have := ih h2
        simp [sizeList]
        omega

/-- Structural induction principle for `FileNode`, obtained by strong
induction on the node count. -/
theorem FileNode.strongInd (P : FileNode → Prop)
    (h : ∀ nm p rp k ch cs, (∀ l, cs = some l → ∀ c ∈ l, P c) →
      P (FileNode.mk nm p rp k ch cs)) :
    ∀ t, P t := by
  have key : ∀ b, ∀ t : FileNode, FileNode.size t ≤ b → P t := by
    intro b
    induction b with
    | zero =>
        intro t ht
        cases t with
        | mk nm p rp k ch cs =>
            cases cs <;> simp [FileNode.size] at ht
    | succ b ih =>
        intro t ht
        cases t with
        | mk nm p rp k ch cs =>
            apply h
            intro l hl c hc
            subst hl
            apply ih
            have h1 := size_le_of_mem hc
            simp [FileNode.size] at ht
            omega
  intro t
  exact key (FileNode.size t) t (Nat.le_refl _)

theorem updateRecursiveList_eq_map (l : List FileNode) (v : Bool) :
    updateRecursiveList l v = l.map (fun c => updateRecursive c v) := by
  induction l with
  | nil => rfl
  | cons c cs ih => simp [updateRecursiveList, ih]

theorem updateNodeCheckedList_eq_map (l : List FileNode) (p : String) (v : Bool) :
    updateNodeCheckedList l p v = l.map (fun c => updateNodeChecked c p v) := by
  induction l with
  | nil => rfl
  | cons c cs ih => simp [updateNodeCheckedList, ih]

theorem updateNodeChecked_of_path_eq {t : FileNode} {p : String} (v : Bool)
    (hp : t.path = p) : updateNodeChecked t p v = updateRecursive t v := by
  cases t with
  | mk nm tp rp k ch cs =>
      simp [FileNode.path] at hp
      cases cs <;> simp [updateNodeChecked, FileNode.path, hp]

theorem updateNodeChecked_none_of_ne {nm tp rp : String} {k : FileKind} {ch : Bool}
    {p : String} (v : Bool) (hp : tp ≠ p) :
    updateNodeChecked (.mk nm tp rp k ch none) p v = .mk nm tp rp k ch none := by
  simp [updateNodeChecked, FileNode.path, hp]

theorem updateNodeChecked_some_of_ne {nm tp rp : String} {k : FileKind} {ch : Bool}
    {l : List FileNode} {p : String} (v : Bool) (hp : tp ≠ p) :
    updateNodeChecked (.mk nm tp rp k ch (some l)) p v =
      .mk nm tp rp k ch (some (l.map (fun c => updateNodeChecked c p v))) := by
  simp [updateNodeChecked, FileNode.path, hp, updateNodeCheckedList_eq_map]

theorem getNode_updateRecursive_shape (v : Bool) :
    ∀ (pos : List Nat) (t : FileNode),
      (getNode (updateRecursive t v) pos).map nodeShape = (getNode t pos).map nodeShape := by
  intro pos
  induction pos with
  | nil =>
      intro t
      cases t with
      | mk nm tp rp k ch cs =>
          cases cs <;>
            simp [updateRecursive, getNode, nodeShape, FileNode.name, FileNode.path,
              FileNode.rel_path, FileNode.type, FileNode.children]
  | cons i rest ih =>
      intro t
      cases t with
      | mk nm tp rp k ch cs =>
          cases cs with
          | none => simp [updateRecursive, getNode, FileNode.children]
          | some l =>
              simp only [updateRecursive, getNode, FileNode.children,
                updateRecursiveList_eq_map, List.get?_map]
              cases hl : l.get? i with
              | none => simp
              | some c => simp [ih c]

theorem getNode_updateRecursive_checked (v : Bool) :
    ∀ (pos : List Nat) (t : FileNode),
      (getNode (updateRecursive t v) pos).map FileNode.checked
        = (getNode t pos).map (fun _ => v) := by
  intro pos
  induction pos with
  | nil =>
      intro t
      cases t with
      | mk nm tp rp k ch cs =>
          cases cs <;> simp [updateRecursive, getNode, FileNode.checked]
  | cons i rest ih =>
      intro t
      cases t with
      | mk nm tp rp k ch cs =>
          cases cs with
          | none => simp [updateRecursive, getNode, FileNode.children]
          | some l =>
              simp only [updateRecursive, getNode, FileNode.children,
                updateRecursiveList_eq_map, List.get?_map]
              cases hl : l.get? i with
              | none => simp
              | some c => simp [ih c]

theorem getNode_updateNodeChecked_shape (p : String) (v : Bool) :
    ∀ (pos : List Nat) (t : FileNode),
      (getNode (updateNodeChecked t p v) pos).map nodeShape
        = (getNode t pos).map nodeShape := by
  intro pos
  induction pos with
  | nil =>
      intro t
      by_cases hp : t.path = p
      · rw [updateNodeChecked_of_path_eq v hp]
        exact getNode_updateRecursive_shape v [] t
      · cases t with
        | mk nm tp rp k ch cs =>
            simp [FileNode.path] at hp
            cases cs with
            | none => rw [updateNodeChecked_none_of_ne v hp]
            | some l =>
                rw [updateNodeChecked_some_of_ne v hp]
                simp [getNode, nodeShape, FileNode.name, FileNode.path, FileNode.rel_path,
                  FileNode.type, FileNode.children]
  | cons i rest ih =>
      intro t
      by_cases hp : t.path = p
      · rw [updateNodeChecked_of_path_eq v hp]
        exact getNode_updateRecursive_shape v (i :: rest) t
      · cases t with
        | mk nm tp rp k ch cs =>
            simp [FileNode.path] at hp
            cases cs with
            | none => rw [updateNodeChecked_none_of_ne v hp]
            | some l =>
                rw [updateNodeChecked_some_of_ne v hp]
                simp only [getNode, FileNode.children, List.get?_map]
                cases hl : l.get? i with
                | none => simp
                | some c => simp [ih c]

theorem getNode_updateNodeChecked_checked (p : String) (v : Bool) :
    ∀ (pos : List Nat) (t : FileNode),
      (getNode (updateNodeChecked t p v) pos).map FileNode.checked
        = (getNode t pos).map (fun m => if underPathB t p pos then v else m.checked) := by
  intro pos
  induction pos with
  | nil =>
      intro t
      by_cases hp : t.path = p
      · rw [updateNodeChecked_of_path_eq v hp]
        rw [getNode_updateRecursive_checked v [] t]
        simp [getNode, underPathB, hp]
      · cases t with
        | mk nm tp rp k ch cs =>
            simp [FileNode.path] at hp
            cases cs with
            | none =>
                rw [updateNodeChecked_none_of_ne v hp]
                simp [getNode, underPathB, FileNode.path, hp]
            | some l =>
                rw [updateNodeChecked_some_of_ne v hp]
                simp [getNode, underPathB, FileNode.path, FileNode.checked, hp]
  | cons i rest ih =>
      intro t
      by_cases hp : t.path = p
      · rw [updateNodeChecked_of_path_eq v hp]
        rw [getNode_updateRecursive_checked v (i :: rest) t]
        simp [underPathB, hp]
      · cases t with
        | mk nm tp rp k ch cs =>
            simp [FileNode.path] at hp
            cases cs with
            | none =>
                rw [updateNodeChecked_none_of_ne v hp]
                simp [getNode, FileNode.children]
            | some l =>
                rw [updateNodeChecked_some_of_ne v hp]
                simp only [getNode, FileNode.children, List.get?_map,
                  underPathB, FileNode.path, hp]
                cases hl : l.get? i with
                | none => simp
                | some c => simp [ih c, hp]

/-- C1: `toggle(t, p, v)` (`updateNodeChecked`) returns a tree in which the
node whose path equals `p` and every descendant of it have `checked = v`
(overwriting prior values), while every other node is unchanged in all
fields: at every position, every field except `checked` is preserved, and
`checked` becomes `v` exactly at the positions lying under a node whose
path equals `p`, keeping its prior value elsewhere. -/
theorem claim_C1_toggle_subtree (t : FileNode) (p : String) (v : Bool) (pos : List Nat) :
    (getNode (updateNodeChecked t p v) pos).map nodeShape
      = (getNode t pos).map nodeShape ∧
    (getNode (updateNodeChecked t p v) pos).map FileNode.checked
      = (getNode t pos).map (fun m => if underPathB t p pos then v else m.checked) :=
  ⟨getNode_updateNodeChecked_shape p v pos t, getNode_updateNodeChecked_checked p v pos t⟩

theorem mem_allNodesList_of_mem {c n : FileNode} {l : List FileNode}
    (hc : c ∈ l) (hn : n ∈ allNodes c) : n ∈ allNodesList l := by
  induction l with
  | nil => cases hc
  | cons a as ih =>
      rcases List.mem_cons.mp hc with rfl | h2
      · simp only [allNodesList, List.mem_append]
        exact Or.inl hn
      · simp only [allNodesList, List.mem_append]
        exact Or.inr (ih h2)

theorem self_mem_allNodes (t : FileNode) : t ∈ allNodes t := by
  cases t with
  | mk nm tp rp k ch cs => cases cs <;> simp [allNodes]

theorem map_id_of_forall {α : Type} {l : List α} {f : α → α}
    (h : ∀ c ∈ l, f c = c) : l.map f = l := by
  induction l with
  | nil => rfl
  | cons a as ih =>
      simp only [List.map_cons, h a (List.mem_cons_self a as)]
      rw [ih (fun c hc => h c (List.mem_cons_of_mem a hc))]

/-- C9: if no node of `t` has `path = p`, then `updateNodeChecked t p v`
returns `t` itself, structurally unchanged (a silent no-op, not an error). -/
theorem claim_C9_toggle_missing_path_noop (p : String) (v : Bool) :
    ∀ t : FileNode, (∀ n ∈ allNodes t, n.path ≠ p) → updateNodeChecked t p v = t := by
  intro t
  induction t using FileNode.strongInd with
  | _ nm tp rp k ch cs ih =>
      intro h
      have htp : tp ≠ p := by
        intro hp
        exact h _ (self_mem_allNodes (.mk nm tp rp k ch cs)) (by simp [FileNode.path, hp])
      cases cs with
      | none => rw [updateNodeChecked_none_of_ne v htp]
      | some l =>
          rw [updateNodeChecked_some_of_ne v htp]
          have hmap : l.map (fun c => updateNodeChecked c p v) = l := by
            apply map_id_of_forall
            intro c hc
            apply ih l rfl c hc
            intro n hn
            apply h
            simp only [allNodes, List.mem_cons]
            exact Or.inr (mem_allNodesList_of_mem hc hn)
          rw [hmap]

theorem extractCheckedFilesList_eq (l : List FileNode)
    (h : ∀ c ∈ l,
      extractCheckedFiles c = ((allNodes c).filter isCheckedFile).map FileNode.rel_path) :
    extractCheckedFilesList l = ((allNodesList l).filter isCheckedFile).map FileNode.rel_path := by
  induction l with
  | nil => rfl
  | cons c cs ih =>
      simp only [extractCheckedFilesList, allNodesList, List.filter_append, List.map_append]
      rw [h c (List.mem_cons_self c cs), ih (fun d hd => h d (List.mem_cons_of_mem c hd))]

theorem isCheckedFile_mk (nm tp rp : String) (k : FileKind) (ch : Bool)
    (cs : Option (List FileNode)) :
    isCheckedFile (.mk nm tp rp k ch cs) = (decide (k = FileKind.file) && ch) := by
  simp only [isCheckedFile, FileNode.type, FileNode.checked]
  cases k <;> cases ch <;> rfl

theorem extractCheckedFiles_eq_filter :
    ∀ t : FileNode,
      extractCheckedFiles t = ((allNodes t).filter isCheckedFile).map FileNode.rel_path := by
  intro t
  induction t using FileNode.strongInd with
  | _ nm tp rp k ch cs ih =>
      have hhead :
          ((List.filter isCheckedFile [FileNode.mk nm tp rp k ch cs]).map FileNode.rel_path)
            = (if k = FileKind.file ∧ ch = true then [rp] else []) := by
        by_cases hk : k = FileKind.file ∧ ch = true
        · obtain ⟨hk1, hk2⟩ := hk
          simp [List.filter_cons, isCheckedFile_mk, hk1, hk2, FileNode.rel_path]
        · have : (decide (k = FileKind.file) && ch) = false := by
            rcases Decidable.em (k = FileKind.file) with h1 | h1
            · have : ch = false := by
                cases ch
                · rfl
                · exact absurd ⟨h1, rfl⟩ hk
              simp [this]
            · simp [h1]
          simp [List.filter_cons, isCheckedFile_mk, this, hk]
      cases cs with
      | none =>
          simp only [extractCheckedFiles, allNodes]
          rw [show (FileNode.mk nm tp rp k ch none :: ([] : List FileNode))
                = [FileNode.mk nm tp rp k ch none] from rfl]
          rw [hhead]
          simp
      | some l =>
          have hlist := extractCheckedFilesList_eq l (fun c hc => ih l rfl c hc)
          simp only [extractCheckedFiles, allNodes]
          rw [show (FileNode.mk nm tp rp k ch (some l) :: allNodesList l)
                = [FileNode.mk nm tp rp k ch (some l)] ++ allNodesList l from rfl]
          rw [List.filter_append, List.map_append, hhead, hlist]

theorem isCheckedFile_eq_true {n : FileNode} :
    isCheckedFile n = true ↔ (n.type = FileKind.file ∧ n.checked = true) := by
  cases n with
  | mk nm tp rp k ch cs =>
      rw [isCheckedFile_mk]
      simp [FileNode.type, FileNode.checked]

/-- C2: `extractSelected` (`extractCheckedFiles`) returns exactly the
`rel_path` of every node with `type = file` and `checked = true`, in
depth-first, children-in-order (preorder) traversal order; `folder` and
`binary` nodes never contribute; consequently a tree with zero checked
file nodes yields the empty list. -/
theorem claim_C2_extract_selected (t : FileNode) :
    extractCheckedFiles t = ((allNodes t).filter isCheckedFile).map FileNode.rel_path ∧
    ((∀ n ∈ allNodes t, n.type = FileKind.file → n.checked = false) →
      extractCheckedFiles t = []) := by
  refine ⟨extractCheckedFiles_eq_filter t, ?_⟩
  intro h
  rw [extractCheckedFiles_eq_filter t]
  have hnil : (allNodes t).filter isCheckedFile = [] := by
    apply List.filter_eq_nil_iff.mpr
    intro n hn hcf
    obtain ⟨h1, h2⟩ := isCheckedFile_eq_true.mp hcf
    rw [h n hn h1] at h2
    cases h2
  rw [hnil]
  rfl

/-- The scenario tree of the specification:
`root(folder, checked=true, [a.py(file), subdir(folder, [b.py(file)])])`,
with all nodes initially checked. -/
def scenarioTree : FileNode :=
  .mk "root" "/root" "." FileKind.folder true (some [
    .mk "a.py" "/root/a.py" "a.py" FileKind.file true none,
    .mk "subdir" "/root/subdir" "subdir" FileKind.folder true (some [
      .mk "b.py" "/root/subdir/b.py" "subdir/b.py" FileKind.file true none])])

/-- Witness for C2: the spec scenario — after toggling the root of
`scenarioTree` to `false`, no checked file node remains, and
`extractCheckedFiles` returns `[]`. -/
theorem claim_C2_extract_selected_witness :
    extractCheckedFiles (updateNodeChecked scenarioTree "/root" false) = [] :=
  (claim_C2_extract_selected (updateNodeChecked scenarioTree "/root" false)).2 (by decide)

/-- Witness for C9: toggling a path that occurs nowhere in the scenario
tree returns the tree unchanged. -/
theorem claim_C9_toggle_missing_path_noop_witness :
    updateNodeChecked scenarioTree "nonexistent" true = scenarioTree :=
  claim_C9_toggle_missing_path_noop "nonexistent" true scenarioTree (by decide)

/-- The `IngestStatus` entity from `types.ts`. -/
structure IngestStatus where
  is_running : Bool
  current_file : String
  progress_percent : Nat
  processed_files : Nat
  total_files : Nat
  log : List String
deriving DecidableEq, Repr

/-- The `InspectionFrame` telemetry entity from `types.ts`. The
`vector_preview` floats are opaque to the buffering logic verified here and
are modelled as integers; the source field holding the referenced modules
(named after them) is rendered here as `frame_imports`. -/
structure InspectionFrame where
  file_path : String
  line_number : Nat
  content_snippet : String
  vector_preview : List Int
  frame_imports : List String
  timestamp : Option String
deriving DecidableEq, Repr

/-- JavaScript `arr.slice(-n)`: the suffix of the last `n` elements (the
whole list when it is shorter than `n`). -/
def sliceLast {α : Type} (n : Nat) (l : List α) : List α :=
  l.drop (l.length - n)

/-- Outcome of one round-trip of `GET /ingest/inspection`: the `fetch`
itself may reject (network failure), the response may be non-ok, or a
batch of frames is returned. -/
inductive FetchOutcome : Type where
  | netError : FetchOutcome
  | httpError : FetchOutcome
  | ok (frames : List InspectionFrame) : FetchOutcome
deriving DecidableEq, Repr

/-- `api.getInspectionFrames` from `services/api.ts`: a rejected `fetch`
propagates as an exception; a non-ok HTTP response is mapped to
`{ frames: [] }` (`if (!res.ok) return { frames: [] }`); otherwise the
server's drained batch is returned. -/
def getInspectionFrames : FetchOutcome → Except Unit (List InspectionFrame)
  | .netError => .error ()
  | .httpError => .ok []
  | .ok fs => .ok fs

/-- Client-side state owned by the `ThoughtStream` component: the frame
buffer (`useState<InspectionFrame[]>([])`), plus the user-visible alerts
raised and errors logged by its polling callback (none ever are — the
catch block is empty). -/
structure TelemetryState where
  frames : List InspectionFrame
  alerts : List String
  logged_errors : Nat
deriving DecidableEq, Repr

/-- One tick of the `ThoughtStream` polling interval: on a successful
non-empty batch, `setFrames(prev => [...prev, ...data.frames].slice(-50))`;
an empty batch leaves the state alone; an exception is swallowed silently
(`catch (e) \x7b /* Silent fail on polling */ \x7d`). -/
def telemetryTick (st : TelemetryState) (o : FetchOutcome) : TelemetryState :=
  match getInspectionFrames o with
  | .error _ => st
  | .ok fs =>
      if 0 < fs.length then { st with frames := sliceLast 50 (st.frames ++ fs) }
      else st

/-- The initial `ThoughtStream` state: empty buffer, nothing reported. -/
def initialTelemetryState : TelemetryState :=
  { frames := [], alerts := [], logged_errors := 0 }

/-- Folding a sequence of pull outcomes through the `ThoughtStream` tick. -/
def telemetryRun (st : TelemetryState) (os : List FetchOutcome) : TelemetryState :=
  os.foldl telemetryTick st

/-- All frames delivered by a sequence of pull outcomes, in pull-arrival
order (batches concatenated in pull order, server order kept in a batch). -/
def arrivedFrames : List FetchOutcome → List InspectionFrame
  | [] => []
  | .ok fs :: os => fs ++ arrivedFrames os
  | .netError :: os => arrivedFrames os
  | .httpError :: os => arrivedFrames os

theorem sliceLast_length_le {α : Type} (n : Nat) (l : List α) :
    (sliceLast n l).length ≤ n := by
  simp only [sliceLast, List.length_drop]
  omega

theorem sliceLast_nil {α : Type} (n : Nat) : sliceLast n ([] : List α) = [] := by
  simp [sliceLast]

theorem sliceLast_append_sliceLast {α : Type} (n : Nat) (x y : List α) :
    sliceLast n (sliceLast n x ++ y) = sliceLast n (x ++ y) := by
  simp only [sliceLast, List.length_append, List.length_drop]
  rw [List.drop_append_eq_append_drop, List.drop_append_eq_append_drop, List.drop_drop]
  simp only [List.length_drop]
  congr 1
  · congr 1
    omega
  · congr 1
    omega

theorem telemetryRun_frames (os : List FetchOutcome) :
    ∀ (st : TelemetryState) (x : List InspectionFrame),
      st.frames = sliceLast 50 x →
      (telemetryRun st os).frames = sliceLast 50 (x ++ arrivedFrames os) := by
  induction os with
  | nil =>
      intro st x h
      simpa [telemetryRun, arrivedFrames] using h
  | cons o os ih =>
      intro st x h
      have hstep : telemetryRun st (o :: os) = telemetryRun (telemetryTick st o) os := rfl
      rw [hstep]
      cases o with
      | netError =>
          rw [show telemetryTick st .netError = st from rfl,
            show arrivedFrames (.netError :: os) = arrivedFrames os from rfl]
          exact ih st x h
      | httpError =>
          rw [show telemetryTick st .httpError = st from rfl,
            show arrivedFrames (.httpError :: os) = arrivedFrames os from rfl]
          exact ih st x h
      | ok fs =>
          rw [show arrivedFrames (.ok fs :: os) = fs ++ arrivedFrames os from rfl]
          by_cases hfs : 0 < fs.length
          · have htick : (telemetryTick st (.ok fs)).frames = sliceLast 50 (x ++ fs) := by
              simp only [telemetryTick, getInspectionFrames, hfs, if_pos]
              rw [h, sliceLast_append_sliceLast]
            have := ih (telemetryTick st (.ok fs)) (x ++ fs) htick
            rw [this, List.append_assoc]
          · have hnil : fs = [] := List.length_eq_zero.mp (by omega)
            subst hnil
            rw [show telemetryTick st (.ok []) = st from rfl]
            rw [show ([] : List InspectionFrame) ++ arrivedFrames os = arrivedFrames os from rfl]
            exact ih st x h

/-- C3: after any finite sequence of telemetry pulls, the `ThoughtStream`
frame buffer equals exactly the last 50 frames in pull-arrival order
(batches appended in pull order, server order preserved within a batch,
oldest entries dropped first), and its length never exceeds 50. -/
theorem claim_C3_buffer_bound (os : List FetchOutcome) :
    (telemetryRun initialTelemetryState os).frames = sliceLast 50 (arrivedFrames os) ∧
    (telemetryRun initialTelemetryState os).frames.length ≤ 50 := by
  have h := telemetryRun_frames os initialTelemetryState []
    (by rw [sliceLast_nil]; rfl)
  rw [show ([] : List InspectionFrame) ++ arrivedFrames os = arrivedFrames os from rfl] at h
  exact ⟨h, by rw [h]; exact sliceLast_length_le 50 _⟩

/-- Shape of one of the two polling effects: its fixed `setInterval`
period, and whether the effect body invokes the puller once immediately
before installing the interval. -/
structure PollingLoop where
  period : Nat
  immediateFirst : Bool
deriving DecidableEq, Repr

/-- The `IngestView` status effect: `poll(); interval = setInterval(poll,
1000)` — an immediate first pull, then a fixed 1000 ms period. The period
is a constant of the effect: no outcome can alter it (no backoff) and the
interval is never cleared before unmount (no stop on failure). -/
def statusLoop : PollingLoop :=
  { period := 1000, immediateFirst := true }

/-- The `ThoughtStream` telemetry effect: `setInterval(async () =>
\x7b...\x7d, 800)` with no immediate invocation — the first pull happens
one full period after activation. The period is likewise a constant of
the effect. -/
def telemetryLoop : PollingLoop :=
  { period := 800, immediateFirst := false }

/-- Instant of the `k`-th pull (0-based) of a polling loop activated at
time `t0`, under standard `setInterval` semantics: an immediate-first loop
pulls at `t0, t0+T, ...`; otherwise at `t0+T, t0+2T, ...`. -/
def pullTime (L : PollingLoop) (t0 k : Nat) : Nat :=
  if L.immediateFirst then t0 + L.period * k else t0 + L.period * (k + 1)

/-- Client-side state owned by the `IngestView` status effect: the
authoritative `JobStatus` snapshot (`useState<IngestStatus>`) and the
count of `console.error` logs emitted by failed polls. -/
structure StatusState where
  status : IngestStatus
  logged_errors : Nat
deriving DecidableEq, Repr

/-- Outcome of one `api.getIngestStatus()` round-trip. -/
inductive StatusOutcome : Type where
  | ok (s : IngestStatus) : StatusOutcome
  | failure : StatusOutcome

/-- One execution of `poll` in the `IngestView` status effect: on success
`setStatus(s)` replaces the whole snapshot; on failure
`console.error("Polling failed", e)` and nothing else. -/
def statusTick (st : StatusState) : StatusOutcome → StatusState
  | .ok s => { st with status := s }
  | .failure => { st with logged_errors := st.logged_errors + 1 }

/-- C7: a failed status pull leaves the previous `JobStatus` snapshot
completely unchanged and only logs the failure; a successful pull replaces
the entire snapshot; the synchronizer neither stops nor changes its fixed
1000 ms schedule (the schedule is a constant function of the activation
instant, independent of outcomes), and its first pull happens immediately
on activation. -/
theorem claim_C7_status_failure_policy (st : StatusState) (s : IngestStatus) (t0 k : Nat) :
    (statusTick st .failure).status = st.status ∧
    (statusTick st .failure).logged_errors = st.logged_errors + 1 ∧
    (statusTick st (.ok s)).status = s ∧
    statusLoop.immediateFirst = true ∧
    pullTime statusLoop t0 0 = t0 ∧
    pullTime statusLoop t0 k = t0 + 1000 * k := by
  refine ⟨rfl, rfl, rfl, rfl, by simp [pullTime, statusLoop], by simp [pullTime, statusLoop]⟩

/-- C8: a failed telemetry pull is swallowed silently — whether the fetch
rejects or the response is non-ok, the `ThoughtStream` state (buffer,
alerts, logged errors) is exactly unchanged — and the 800 ms schedule is a
constant function of the activation instant, unaffected by outcomes. -/
theorem claim_C8_telemetry_failure_swallowed (st : TelemetryState) (t0 k : Nat) :
    telemetryTick st .netError = st ∧
    telemetryTick st .httpError = st ∧
    pullTime telemetryLoop t0 k = t0 + 800 * (k + 1) := by
  refine ⟨rfl, ?_, by simp [pullTime, telemetryLoop]⟩
  simp [telemetryTick, getInspectionFrames]

/-- Lifecycle state of the `ThoughtStream` polling timer: whether an
interval is currently installed, how many distinct interval instances have
been started, and how many pulls have been issued. -/
structure TelemetryTimer where
  active : Bool
  generation : Nat
  pulls : Nat
deriving DecidableEq, Repr

/-- An observable event for the timer lifecycle: the `isRunning` prop
taking a (possibly unchanged) value on a render, or one polling period
elapsing. -/
inductive TimerEvent : Type where
  | setRunning (b : Bool) : TimerEvent
  | tick : TimerEvent
deriving DecidableEq, Repr

/-- React lifecycle of the `ThoughtStream` polling effect, whose
dependency array is `[isRunning]`: when the observed `isRunning` value
changes, the previous effect's cleanup (`clearInterval`) runs and the
effect re-runs, installing a brand-new interval only when `isRunning` is
true (`if (!isRunning) return;`); when the value is unchanged the effect
does not re-run. While no interval is installed, an elapsing period
(`tick`) issues no pull. -/
def timerStep (st : TelemetryTimer) : TimerEvent → TelemetryTimer
  | .setRunning b =>
      if b = st.active then st
      else if b then { st with active := true, generation := st.generation + 1 }
      else { st with active := false }
  | .tick => if st.active then { st with pulls := st.pulls + 1 } else st

/-- Folding a sequence of lifecycle events through `timerStep`. -/
def timerRun (st : TelemetryTimer) (evs : List TimerEvent) : TelemetryTimer :=
  evs.foldl timerStep st

/-- C4: the telemetry stream is active exactly while the observed
`is_running` flag is true — after observing `setRunning b` the timer is
installed iff `b`; over any interval in which the flag stays false (only
`tick` events), the state is unchanged, so zero pulls are issued; an
active-to-inactive transition cancels the timer; and every re-activation
installs a fresh timer instance (the generation counter increases). -/
theorem claim_C4_activation_gate (st : TelemetryTimer) (evs : List TimerEvent) (b : Bool) :
    (timerStep st (.setRunning b)).active = b ∧
    (st.active = false → (∀ e ∈ evs, e = TimerEvent.tick) → timerRun st evs = st) ∧
    (st.active = true → (timerStep st (.setRunning false)).active = false) ∧
    (st.active = false →
      (timerStep st (.setRunning true)).generation = st.generation + 1 ∧
      (timerStep st (.setRunning true)).active = true) := by
  refine ⟨?_, ?_, ?_, ?_⟩
  · rcases Bool.eq_false_or_eq_true st.active with h | h <;>
      cases b <;> simp [timerStep, h]
  · intro hact hticks
    induction evs with
    | nil => rfl
    | cons e es ih =>
        have he : e = TimerEvent.tick := hticks e (List.mem_cons_self e es)
        subst he
        have hstep : timerStep st .tick = st := by simp [timerStep, hact]
        have : timerRun st (TimerEvent.tick :: es) = timerRun st es := by
          simp [timerRun, List.foldl_cons, hstep]
        rw [this]
        exact ih (fun e he => hticks e (List.mem_cons_of_mem _ he))
  · intro hact
    simp [timerStep, hact]
  · intro hact
    constructor <;> simp [timerStep, hact]

/-- Witness for C4 at concrete inputs: from the inactive initial state,
three elapsed periods issue no pull and change nothing; cancelling from an
active state deactivates; re-activating from inactive bumps the
generation. -/
theorem claim_C4_activation_gate_witness :
    timerRun ⟨false, 0, 0⟩ [TimerEvent.tick, TimerEvent.tick, TimerEvent.tick] = ⟨false, 0, 0⟩ ∧
    (timerStep ⟨true, 1, 2⟩ (.setRunning false)).active = false ∧
    (timerStep ⟨false, 1, 2⟩ (.setRunning true)).generation = 2 := by
  refine ⟨?_, ?_, ?_⟩
  · exact (claim_C4_activation_gate ⟨false, 0, 0⟩
      [TimerEvent.tick, TimerEvent.tick, TimerEvent.tick] true).2.1 rfl (by decide)
  · exact (claim_C4_activation_gate ⟨true, 1, 2⟩ [] true).2.2.1 rfl
  · exact ((claim_C4_activation_gate ⟨false, 1, 2⟩ [] true).2.2.2 rfl).1

/-- C10: the telemetry puller issues no pull at activation time: its
first pull is at `t0 + 800`, one full period after activation at `t0`,
and no pull at all falls strictly before that instant — unlike the status
synchronizer, whose first pull is immediate (at `t0`). -/
theorem claim_C10_no_immediate_telemetry_pull (t0 k t : Nat) :
    telemetryLoop.immediateFirst = false ∧
    pullTime telemetryLoop t0 0 = t0 + 800 ∧
    (t < t0 + 800 → ¬ pullTime telemetryLoop t0 k ≤ t) ∧
    statusLoop.immediateFirst = true ∧
    pullTime statusLoop t0 0 = t0 := by
  refine ⟨rfl, by simp [pullTime, telemetryLoop], ?_, rfl, by simp [pullTime, statusLoop]⟩
  intro ht hle
  simp [pullTime, telemetryLoop] at hle
  omega

/-- Witness for C10 at concrete inputs: activated at time 0, no telemetry
pull (here the 6th) has happened by time 799. -/
theorem claim_C10_no_immediate_telemetry_pull_witness :
    ¬ pullTime telemetryLoop 0 5 ≤ 799 :=
  (claim_C10_no_immediate_telemetry_pull 0 5 799).2.2.1 (by decide)

/-- The body of an `api.executeIngest` request (`POST /ingest/execute`). -/
structure IngestRequest where
  db_name : String
  root_path : String
  files : List String
  llm_model : String
deriving DecidableEq, Repr

/-- The `IngestView` state visible to `handleStartIngest`, plus the
observable effects it can produce: the alerts shown to the user and the
network requests issued. `status` is the status synchronizer's snapshot
and `frames` the telemetry buffer of the view subtree; the handler reads
neither and writes neither. -/
structure IngestViewState where
  activeDB : Option String
  tree : Option FileNode
  targetPath : String
  llmModel : String
  status : IngestStatus
  frames : List InspectionFrame
  showInspector : Bool
  alerts : List String
  requests : List IngestRequest

/-- `targetPath.trim() || "."` — in JavaScript the empty trimmed string is
falsy, so it defaults to `"."`. -/
def trimmedOrDot (s : String) : String :=
  if s.trim = "" then "." else s.trim

/-- `handleStartIngest` from `IngestView`: with no active KB, alert
"Please select a Knowledge Base first!" and return; with no tree, return
silently; with zero checked files, return silently (no alert); otherwise
issue `api.executeIngest(activeDB, path, files, llmModel)` — on success
`setShowInspector(true)`, on failure alert "Ingest Error: " plus the
message. `outcome` is the result of the round-trip when one is issued. -/
def handleStartIngest (st : IngestViewState) (outcome : Except String Unit) : IngestViewState :=
  match st.activeDB with
  | none => { st with alerts := st.alerts ++ ["Please select a Knowledge Base first!"] }
  | some db =>
      match st.tree with
      | none => st
      | some t =>
          let files := extractCheckedFiles t
          if files.length = 0 then st
          else
            let req : IngestRequest :=
              { db_name := db, root_path := trimmedOrDot st.targetPath,
                files := files, llm_model := st.llmModel }
            match outcome with
            | .ok _ =>
                { st with requests := st.requests ++ [req], showInspector := true }
            | .error msg =>
                { st with requests := st.requests ++ [req],
                          alerts := st.alerts ++ ["Ingest Error: " ++ msg] }

/-- Whether the `ThoughtStream` component (the TelemetryStream) is
mounted: it is rendered exactly when `showInspector` is true
(`showInspector && <ThoughtStream isRunning=... />`). -/
def telemetryStreamMounted (st : IngestViewState) : Bool :=
  st.showInspector

/-- A tree whose nodes are all unchecked: zero selected files. -/
def uncheckedTree : FileNode :=
  .mk "root" "/root" "." FileKind.folder false (some [
    .mk "a.py" "/root/a.py" "a.py" FileKind.file false none])

/-- The idle `IngestStatus` the view starts from. -/
def idleStatus : IngestStatus :=
  { is_running := false, current_file := "", progress_percent := 0,
    processed_files := 0, total_files := 0, log := [] }

/-- A concrete view state with a selected KB and a scanned tree that has
zero checked files. -/
def uncheckedViewState : IngestViewState :=
  { activeDB := some "kb", tree := some uncheckedTree, targetPath := "",
    llmModel := "none", status := idleStatus, frames := [],
    showInspector := false, alerts := [], requests := [] }

/-- Counterexample to C5 as stated: invoking the start handler with a
non-null KB but an empty selection issues no network request, yet also
reports nothing to the user — the alert list stays empty, so no "local
validation error is ... reported to the user", contrary to the claim. -/
theorem claim_C5_counterexample :
    (handleStartIngest uncheckedViewState (.ok ())).requests = [] ∧
    (handleStartIngest uncheckedViewState (.ok ())).alerts = [] := by
  constructor <;> rfl

/-- C5 (amended): with a null KB, the handler raises the validation alert
"Please select a Knowledge Base first!", issues no network request, and
changes nothing else; with a non-null KB and an empty selection, the
handler returns silently — no network request, no error report, and no
state change at all. -/
theorem claim_C5_empty_selection_validation (st : IngestViewState)
    (outcome : Except String Unit) :
    (st.activeDB = none →
      handleStartIngest st outcome
        = { st with alerts := st.alerts ++ ["Please select a Knowledge Base first!"] }) ∧
    (∀ db t, st.activeDB = some db → st.tree = some t → extractCheckedFiles t = [] →
      handleStartIngest st outcome = st) := by
  constructor
  · intro h
    simp [handleStartIngest, h]
  · intro db t hdb ht hfe
    simp [handleStartIngest, hdb, ht, hfe]

/-- Witness for the amended C5 at a concrete input: on the zero-selection
state the handler is the identity. -/
theorem claim_C5_empty_selection_validation_witness :
    handleStartIngest uncheckedViewState (.ok ()) = uncheckedViewState :=
  (claim_C5_empty_selection_validation uncheckedViewState (.ok ())).2
    "kb" uncheckedTree rfl rfl (by decide)

/-- C6: when the preconditions hold and the submission succeeds, the
handler immediately mounts the TelemetryStream pane (`showInspector`
becomes true) while leaving the status snapshot — in particular its
`is_running` flag, which has not yet flipped — and the frame buffer
untouched, i.e. optimistically ahead of the polled flag; when the
submission fails, the error is surfaced as the alert "Ingest Error: "
plus the server detail, and the status snapshot, the frame buffer and the
inspector visibility are all left untouched. -/
theorem claim_C6_start_outcome (st : IngestViewState) (db : String) (t : FileNode)
    (hdb : st.activeDB = some db) (ht : st.tree = some t)
    (hf : extractCheckedFiles t ≠ []) :
    (telemetryStreamMounted (handleStartIngest st (.ok ())) = true ∧
     (handleStartIngest st (.ok ())).status = st.status ∧
     (handleStartIngest st (.ok ())).status.is_running = st.status.is_running ∧
     (handleStartIngest st (.ok ())).frames = st.frames ∧
     (handleStartIngest st (.ok ())).alerts = st.alerts) ∧
    (∀ msg,
      (handleStartIngest st (.error msg)).alerts
          = st.alerts ++ ["Ingest Error: " ++ msg] ∧
      (handleStartIngest st (.error msg)).status = st.status ∧
      (handleStartIngest st (.error msg)).frames = st.frames ∧
      (handleStartIngest st (.error msg)).showInspector = st.showInspector) := by
  have hlen : ¬ (extractCheckedFiles t).length = 0 := by
    simpa [List.length_eq_zero] using hf
  constructor
  · refine ⟨?_, ?_, ?_, ?_, ?_⟩ <;>
      simp [handleStartIngest, telemetryStreamMounted, hdb, ht, hlen]
  · intro msg
    refine ⟨?_, ?_, ?_, ?_⟩ <;>
      simp [handleStartIngest, hdb, ht, hlen]

/-- A concrete view state with a selected KB and the scenario tree, whose
files are all checked. -/
def selectedViewState : IngestViewState :=
  { activeDB := some "kb", tree := some scenarioTree, targetPath := "",
    llmModel := "none", status := idleStatus, frames := [],
    showInspector := false, alerts := [], requests := [] }

/-- Witness for C6 at a concrete input: a successful submission mounts
the TelemetryStream while the polled flag is still false. -/
theorem claim_C6_start_outcome_witness :
    telemetryStreamMounted (handleStartIngest selectedViewState (.ok ())) = true :=
  (claim_C6_start_outcome selectedViewState "kb" scenarioTree rfl rfl (by decide)).1.1
